import Mathlib

/-!
Verification of the LogLite asynchronous logger (`src/include/LogLite.hpp`,
`src/src/main.cpp`) against its natural-language specification.

The C++ code is shallowly embedded: `ThreadSafeQueue<std::string>` becomes a
`List String` with the head at the front (`std::queue` pops from the front and
pushes at the back), logger state becomes an explicit record, and the worker
thread's control flow becomes a step function on that record.
-/

namespace LogLite

/-! ## ThreadSafeQueue

`m_queue : std::queue<T>` is modelled as `List String`, head of the list =
front of the queue.  Each member function owns the lock for its whole body,
so each is one atomic transformation of the list. -/

/-- Embeds `ThreadSafeQueue::push`: append `value` at the back of the queue
(`m_queue.push(std::move(value))`), then notify one waiter. -/
def push (q : List String) (value : String) : List String :=
  q ++ [value]

/-- Embeds `ThreadSafeQueue::try_pop(T& value)`.  The C++ function takes the
output slot by reference and returns a `bool`; we return the triple
(returned bool, slot contents after the call, queue after the call).
On an empty queue it returns `false` leaving slot and queue untouched;
otherwise it moves the front into the slot and pops it. -/
def try_pop (slot : String) (q : List String) : Bool × String × List String :=
  match q with
  | [] => (false, slot, q)
  | x :: xs => (true, x, xs)

/-- Embeds the predicate-re-checking loop of
`m_cond.wait(lock, [this] \x7b return !m_queue.empty(); \x7d)` inside
`ThreadSafeQueue::wait_and_pop`.  `std::condition_variable::wait(lock, pred)`
re-evaluates `pred` under the lock after every (possibly spurious) wake-up and
only returns when it is true.  `obss` is the sequence of queue states observed
at each predicate check; the wait returns at the first observation whose queue
is non-empty, and never returns if all observations are empty. -/
def cvWaitObserved (obss : List (List String)) : Option (List String) :=
  obss.find? (fun q => !q.isEmpty)

/-- Embeds `ThreadSafeQueue::wait_and_pop`: wait until the queue is observed
non-empty, then move the front out and pop it.  Returns `none` when the wait
never ends within the observations (the thread is still blocked), otherwise
`some (front, rest)`. -/
def wait_and_pop (obss : List (List String)) : Option (String × List String) :=
  match cvWaitObserved obss with
  | some (x :: xs) => some (x, xs)
  | _ => none

/-! ## Logger formatting (`Logger::log`) -/

/-- A `std::source_location`: the file name and line it reports. -/
structure SourceLoc where
  file : String
  line : Nat
deriving DecidableEq, Repr

/-- The location at which `Logger::log`'s body evaluates
`std::source_location::current()`: line 92 of `src/include/LogLite.hpp`
(`const std::source_location& loc = std::source_location::current();`).
Because the call is in the function body and not a defaulted parameter,
`current()` reports this fixed location on every call. -/
def logImplLoc : SourceLoc :=
  { file := "LogLite.hpp", line := 92 }

/-- Embeds the `std::format` call of `Logger::log` producing `full_message`
from the timestamp text, the location reported by `loc`, and the already
formatted user message. -/
def renderLine (ts : String) (locFile : String) (locLine : Nat) (userMsg : String) : String :=
  "[" ++ ts ++ "] [" ++ locFile ++ ":" ++ toString locLine ++ "] " ++ userMsg

/-- Embeds `Logger::log` up to the push: the rendered `full_message`.
`callerLoc` is the source location of the caller's call site; the embedded
body, like the C++ body, evaluates `std::source_location::current()` at
`logImplLoc` and ignores the caller's location entirely. -/
def logRender (ts : String) (callerLoc : SourceLoc) (userMsg : String) : String :=
  let loc := logImplLoc
  let _ := callerLoc
  renderLine ts loc.file loc.line userMsg

/-- Embeds `m_log_file << message << std::endl`: append the message and a
newline to the file contents. -/
def writeLine (contents : String) (message : String) : String :=
  contents ++ message ++ "\n"

/-- Embeds the constructor's `m_log_file("log.txt", std::ios::app)`: opening
in append mode keeps the prior contents and positions writes at the end. -/
def openAppend (prior : String) : String :=
  prior

/-- The line shape demanded by the spec (section 6): a timestamp in brackets,
then file and line in brackets separated by a colon, then the user message. -/
def SpecLineShape (l : String) : Prop :=
  ∃ ts f ln msg, l = "[" ++ ts ++ "] [" ++ f ++ ":" ++ ln ++ "] " ++ msg

/-! ## The writer loop and logger lifecycle

`Logger::writer_loop` runs on the worker thread.  Its control flow is the
spec's three phases: the `while (m_active)` loop (RUNNING), the
`while (m_queue.try_pop(message))` drain loop (DRAINING), and returning
(STOPPED).  We embed the whole system (queue, liveness flag, file, worker
control point) as a record and the worker's visible actions as one step
function; producer pushes and the destructor's flag write are separate
events interleaved with worker steps. -/

/-- The worker thread's control point inside `Logger::writer_loop`. -/
inductive Phase where
  | running
  | draining
  | stopped
deriving DecidableEq, Repr

/-- Shared state of the logger: `m_queue` contents, the `m_active` flag,
the lines written to `m_log_file` so far, and the worker's control point. -/
structure LoggerState where
  queue : List String
  active : Bool
  file : List String
  phase : Phase
deriving DecidableEq, Repr

/-- State of the logger right after the constructor ran: empty queue,
`m_active\x7btrue\x7d`, nothing written, worker at the top of its loop. -/
def initState : LoggerState :=
  { queue := [], active := true, file := [], phase := .running }

/-- One iteration of `Logger::writer_loop`, embedded from the source:
* RUNNING: the `while (m_active)` test runs first; if false the loop exits
  into the drain phase without popping.  Otherwise `wait_and_pop` runs: on an
  empty queue the worker stays blocked (`none`); otherwise it pops the front
  and writes it iff it is non-empty (`if (!message.empty())`), remaining in
  the running phase.
* DRAINING: `try_pop`; on failure the loop ends and the function returns
  (stopped); on success the popped item is written iff non-empty.
* STOPPED: the thread function has returned; no further steps (`none`). -/
def writerStep (s : LoggerState) : Option LoggerState :=
  match s.phase with
  | .running =>
    if s.active then
      match s.queue with
      | [] => none
      | x :: xs =>
        some { s with queue := xs,
                      file := if x = "" then s.file else s.file ++ [x] }
    else
      some { s with phase := .draining }
  | .draining =>
    match try_pop "" s.queue with
    | (false, _, _) => some { s with phase := .stopped }
    | (true, x, q') =>
      some { s with queue := q',
                    file := if x = "" then s.file else s.file ++ [x] }
  | .stopped => none

/-- Events of the whole system: a worker iteration (`wstep`), a producer
push through `Logger::log` / the destructor's sentinel push (`push v`),
and the destructor's `m_active = false` (`deactivate`).  A blocked or
finished worker makes `wstep` a no-op: the thread simply has not moved. -/
inductive Ev where
  | wstep
  | push (v : String)
  | deactivate
deriving DecidableEq, Repr

/-- One event applied to the logger state. -/
def step (s : LoggerState) : Ev → LoggerState
  | .wstep => (writerStep s).getD s
  | .push v => { s with queue := push s.queue v }
  | .deactivate => { s with active := false }

/-- Run a sequence of events from a state. -/
def run (s : LoggerState) : List Ev → LoggerState
  | [] => s
  | e :: es => run (step s e) es

/-- Run the worker alone until it is blocked or stopped, with fuel.  Used to
express that after teardown the worker runs to completion. -/
def runWriter (s : LoggerState) : Nat → LoggerState
  | 0 => s
  | fuel + 1 =>
    match writerStep s with
    | none => s
    | some s' => runWriter s' fuel

/-- The values pushed by a sequence of events, in order. -/
def pushedOf : List Ev → List String
  | [] => []
  | .push v :: es => v :: pushedOf es
  | _ :: es => pushedOf es

/-- The non-empty (non-sentinel) items of a list, in order. -/
def realItems (l : List String) : List String :=
  l.filter (fun x => x ≠ "")

/-! ## The shutdown drain loop in isolation

`writer_loop` lines 130-137: `std::string message; while (m_queue.try_pop(message))
\x7b if (!message.empty()) \x7b m_log_file << message << std::endl; \x7d \x7d`.
Embedded with explicit fuel so that every iteration is literally a `try_pop`
call; the result is (file lines written, final queue, number of successful
`try_pop` iterations). -/
def drainLoop (file : List String) (q : List String) : Nat → List String × List String × Nat
  | 0 => (file, q, 0)
  | fuel + 1 =>
    match try_pop "" q with
    | (false, _, _) => (file, q, 0)
    | (true, x, q') =>
      let r := drainLoop (if x = "" then file else file ++ [x]) q' fuel
      (r.1, r.2.1, r.2.2 + 1)

/-! ## ThreadSafeQueue operation traces (for the FIFO claim)

A trace records, besides the queue, the ghost history of values pushed and
values delivered to the consumer.  `pop` covers both a `wait_and_pop` whose
wait has ended and a successful `try_pop`: both remove the front under the
lock; a `try_pop` on an empty queue and a still-blocked `wait_and_pop`
deliver nothing and leave the queue unchanged. -/

structure QTrace where
  queue : List String
  pushed : List String
  popped : List String
deriving DecidableEq, Repr

/-- Queue operations as seen by the lock: each holds the lock for its whole
body, so a concurrent execution is some interleaving, i.e. a list of `QOp`. -/
inductive QOp where
  | push (v : String)
  | pop
deriving DecidableEq, Repr

/-- One queue operation: `push` appends at the tail (`ThreadSafeQueue::push`);
`pop` removes the head via `try_pop` when one exists and delivers it to the
consumer, and does nothing on an empty queue. -/
def qstep (s : QTrace) : QOp → QTrace
  | .push v => { s with queue := push s.queue v, pushed := s.pushed ++ [v] }
  | .pop =>
    match try_pop "" s.queue with
    | (false, _, _) => s
    | (true, x, q') => { s with queue := q', popped := s.popped ++ [x] }

/-- Run a list of queue operations from a trace state. -/
def qrun (s : QTrace) : List QOp → QTrace
  | [] => s
  | op :: ops => qrun (qstep s op) ops

/-- The empty initial trace. -/
def qinit : QTrace :=
  { queue := [], pushed := [], popped := [] }

/-! ## The spec's wording of the worker state machine (section 4.2)

For the refinement claim we transcribe the spec's words into a second step
function and compare it with `writerStep`, which was transcribed from the
source.  Spec: "State RUNNING (initial): repeatedly `wait_and_pop`; if the
popped item is non-empty, write it to the file; if empty (sentinel) or
liveness flag is false, transition to DRAINING.  State DRAINING: repeatedly
`try_pop`; while an item is returned, write it if non-empty; when the queue
reports empty, transition to STOPPED." -/
def specWriterStep (s : LoggerState) : Option LoggerState :=
  match s.phase with
  | .running =>
    match s.queue with
    | [] => none
    | x :: xs =>
      let f' := if x = "" then s.file else s.file ++ [x]
      if x = "" ∨ s.active = false then
        some { s with queue := xs, file := f', phase := .draining }
      else
        some { s with queue := xs, file := f' }
  | .draining =>
    match s.queue with
    | [] => some { s with phase := .stopped }
    | x :: xs =>
      some { s with queue := xs,
                    file := if x = "" then s.file else s.file ++ [x] }
  | .stopped => none

/-- The worker state machine as the code actually behaves, amended from the
spec's wording: in RUNNING the liveness flag is checked first and, when
false, causes the transition to DRAINING without popping; otherwise the
worker blocking-pops, writes the popped item exactly when it is non-empty,
and stays in RUNNING (an empty popped item is skipped, not written, and does
not by itself cause a transition); DRAINING and STOPPED are as the spec
words them. -/
def specWriterStepAmended (s : LoggerState) : Option LoggerState :=
  match s.phase, s.active, s.queue with
  | .running, false, _ => some { s with phase := .draining }
  | .running, true, [] => none
  | .running, true, x :: xs =>
    some { queue := xs, active := true, file := s.file ++ realItems [x],
           phase := .running }
  | .draining, _, [] => some { s with phase := .stopped }
  | .draining, _, x :: xs =>
    some { s with queue := xs, file := s.file ++ realItems [x] }
  | .stopped, _, _ => none

/-- Embeds the body of `Logger::~Logger`: set `m_active` to false, then push
the empty sentinel to wake a parked worker. -/
def shutdownState (s : LoggerState) : LoggerState :=
  step (step s .deactivate) (.push "")

/-- Embeds `Logger::~Logger` followed by the implicit `std::jthread` join:
after the destructor body runs, the worker thread runs to completion (the
fuel shown suffices, see `runWriter_shutdown`).  Only after this join do the
members, including the `m_log_file` handle, get destroyed. -/
def teardown (s : LoggerState) : LoggerState :=
  runWriter (shutdownState s) ((shutdownState s).queue.length + 2)

/-- Embeds the constructor's append-mode open followed by a sequence of
`m_log_file << message << std::endl` writes. -/
def writeAll (contents : String) : List String → String
  | [] => contents
  | m :: ms => writeAll (writeLine contents m) ms

/-! ## Helper lemmas -/

lemma pushedOf_cons (e : Ev) (es : List Ev) :
    pushedOf (e :: es) = pushedOf [e] ++ pushedOf es := by
  cases e <;> rfl

lemma realItems_append (l₁ l₂ : List String) :
    realItems (l₁ ++ l₂) = realItems l₁ ++ realItems l₂ := by
  simp [realItems]

lemma step_file_queue (s : LoggerState) (e : Ev) :
    (step s e).file ++ realItems (step s e).queue
      = s.file ++ realItems s.queue ++ realItems (pushedOf [e]) := by
  cases e with
  | push v =>
    simp [step, push, pushedOf, realItems_append, realItems]
  | deactivate =>
    simp [step, pushedOf, realItems]
  | wstep =>
    simp only [step, pushedOf, realItems, List.filter_nil, List.append_nil]
    rcases s with ⟨q, a, f, ph⟩
    cases ph with
    | running =>
      cases a with
      | false => simp [writerStep]
      | true =>
        cases q with
        | nil => simp [writerStep]
        | cons x xs =>
          by_cases hx : x = "" <;>
            simp [writerStep, hx, List.filter_cons, List.append_assoc]
    | draining =>
      cases q with
      | nil => simp [writerStep, try_pop]
      | cons x xs =>
        by_cases hx : x = "" <;>
          simp [writerStep, try_pop, hx, List.filter_cons, List.append_assoc]
    | stopped => simp [writerStep]

lemma run_file_queue (evs : List Ev) : ∀ s : LoggerState,
    (run s evs).file ++ realItems (run s evs).queue
      = s.file ++ realItems s.queue ++ realItems (pushedOf evs) := by
  induction evs with
  | nil => intro s; simp [run, pushedOf, realItems]
  | cons e es ih =>
    intro s
    rw [show run s (e :: es) = run (step s e) es from rfl, ih (step s e),
      step_file_queue]
    cases e with
    | wstep => simp [pushedOf, realItems]
    | deactivate => simp [pushedOf, realItems]
    | push v =>
      by_cases hv : v = "" <;>
        simp [pushedOf, realItems, List.filter_cons, hv, List.append_assoc]

lemma run_no_deactivate (evs : List Ev) : ∀ s : LoggerState,
    Ev.deactivate ∉ evs → s.active = true → s.phase = .running →
    (run s evs).active = true ∧ (run s evs).phase = .running := by
  induction evs with
  | nil => intro s _ ha hp; exact ⟨ha, hp⟩
  | cons e es ih =>
    intro s hmem ha hp
    have hmem' : Ev.deactivate ∉ es := fun h => hmem (List.mem_cons_of_mem _ h)
    have hstep : (step s e).active = true ∧ (step s e).phase = .running := by
      cases e with
      | push v => exact ⟨ha, hp⟩
      | deactivate => exact absurd (List.mem_cons_self _ _) hmem
      | wstep =>
        rcases s with ⟨q, a, f, ph⟩
        simp only at ha hp
        subst ha; subst hp
        cases q with
        | nil => simp [step, writerStep]
        | cons x xs => simp [step, writerStep]
    exact ih (step s e) hmem' hstep.1 hstep.2

lemma runWriter_stopped (s : LoggerState) (h : s.phase = .stopped) :
    ∀ fuel, runWriter s fuel = s := by
  intro fuel
  cases fuel with
  | zero => rfl
  | succ k =>
    have : writerStep s = none := by
      rcases s with ⟨q, a, f, ph⟩
      simp only at h
      subst h
      rfl
    simp [runWriter, this]

lemma runWriter_drain (q : List String) : ∀ (a : Bool) (f : List String) (fuel : Nat),
    q.length + 1 ≤ fuel →
    runWriter { queue := q, active := a, file := f, phase := .draining } fuel
      = { queue := [], active := a, file := f ++ realItems q, phase := .stopped } := by
  induction q with
  | nil =>
    intro a f fuel hf
    match fuel, hf with
    | k + 1, _ =>
      have h1 : writerStep { queue := [], active := a, file := f, phase := .draining }
          = some { queue := [], active := a, file := f, phase := .stopped } := rfl
      rw [show runWriter { queue := [], active := a, file := f, phase := .draining } (k + 1)
            = runWriter { queue := [], active := a, file := f, phase := .stopped } k by
          simp [runWriter, h1],
        runWriter_stopped _ rfl]
      simp [realItems]
  | cons x xs ih =>
    intro a f fuel hf
    match fuel, hf with
    | k + 1, hf =>
      have hk : xs.length + 1 ≤ k := by
        simpa [Nat.succ_le_succ_iff] using hf
      have h1 : writerStep { queue := x :: xs, active := a, file := f, phase := .draining }
          = some { queue := xs, active := a,
                   file := if x = "" then f else f ++ [x], phase := .draining } := by
        simp [writerStep, try_pop]
      rw [show runWriter { queue := x :: xs, active := a, file := f, phase := .draining } (k + 1)
            = runWriter { queue := xs, active := a,
                          file := if x = "" then f else f ++ [x], phase := .draining } k by
          simp [runWriter, h1],
        ih a _ k hk]
      by_cases hx : x = "" <;>
        simp [hx, realItems, List.filter_cons, List.append_assoc]

lemma runWriter_shutdown (s : LoggerState) (ha : s.active = false)
    (hp : s.phase = .running) (fuel : Nat) (hf : s.queue.length + 2 ≤ fuel) :
    runWriter s fuel
      = { queue := [], active := false, file := s.file ++ realItems s.queue,
          phase := .stopped } := by
  rcases s with ⟨q, a, f, ph⟩
  simp only at ha hp hf ⊢
  subst ha; subst hp
  match fuel, hf with
  | k + 1, hf =>
    have hk : q.length + 1 ≤ k := by
      simpa [Nat.succ_le_succ_iff] using hf
    have h1 : writerStep { queue := q, active := false, file := f, phase := .running }
        = some { queue := q, active := false, file := f, phase := .draining } := by
      simp [writerStep]
    rw [show runWriter { queue := q, active := false, file := f, phase := .running } (k + 1)
          = runWriter { queue := q, active := false, file := f, phase := .draining } k by
        simp [runWriter, h1],
      runWriter_drain q false f k hk]

lemma step_file_nonempty (s : LoggerState) (e : Ev)
    (h : ∀ l ∈ s.file, l ≠ "") : ∀ l ∈ (step s e).file, l ≠ "" := by
  cases e with
  | push v => simpa [step] using h
  | deactivate => simpa [step] using h
  | wstep =>
    rcases s with ⟨q, a, f, ph⟩
    simp only at h
    cases ph with
    | running =>
      cases a with
      | false => simpa [step, writerStep] using h
      | true =>
        cases q with
        | nil => simpa [step, writerStep] using h
        | cons x xs =>
          by_cases hx : x = ""
          · simpa [step, writerStep, hx] using h
          · intro l hl
            simp [step, writerStep, hx] at hl
            rcases hl with hl | hl
            · exact h l hl
            · subst hl; exact hx
    | draining =>
      cases q with
      | nil => simpa [step, writerStep, try_pop] using h
      | cons x xs =>
        by_cases hx : x = ""
        · simpa [step, writerStep, try_pop, hx] using h
        · intro l hl
          simp [step, writerStep, try_pop, hx] at hl
          rcases hl with hl | hl
          · exact h l hl
          · subst hl; exact hx
    | stopped => simpa [step, writerStep] using h

lemma run_file_nonempty (evs : List Ev) : ∀ s : LoggerState,
    (∀ l ∈ s.file, l ≠ "") → ∀ l ∈ (run s evs).file, l ≠ "" := by
  induction evs with
  | nil => intro s h; exact h
  | cons e es ih =>
    intro s h
    exact ih (step s e) (step_file_nonempty s e h)

lemma shutdownState_phase (s : LoggerState) :
    (shutdownState s).phase = s.phase := rfl

lemma shutdownState_active (s : LoggerState) :
    (shutdownState s).active = false := rfl

lemma realItems_eq_self (l : List String) (h : ∀ v ∈ l, v ≠ "") :
    realItems l = l :=
  List.filter_eq_self.mpr fun v hv => by simpa using h v hv

lemma drainLoop_eq (q : List String) : ∀ (file : List String) (fuel : Nat),
    q.length ≤ fuel →
    drainLoop file q fuel = (file ++ realItems q, [], q.length) := by
  induction q with
  | nil =>
    intro file fuel _
    cases fuel with
    | zero => simp [drainLoop, realItems]
    | succ k => simp [drainLoop, try_pop, realItems]
  | cons x xs ih =>
    intro file fuel hf
    match fuel, hf with
    | k + 1, hf =>
      have hk : xs.length ≤ k := by simpa [Nat.succ_le_succ_iff] using hf
      rw [show drainLoop file (x :: xs) (k + 1)
            = (let r := drainLoop (if x = "" then file else file ++ [x]) xs k
               (r.1, r.2.1, r.2.2 + 1)) from rfl]
      rw [ih (if x = "" then file else file ++ [x]) k hk]
      by_cases hx : x = "" <;>
        simp [hx, realItems, List.filter_cons, List.append_assoc]

lemma foldl_append_eq_join (l : List String) : ∀ c : String,
    l.foldl (fun r s => r ++ s) c = c ++ String.join l := by
  induction l with
  | nil => intro c; simp [String.join, String.append_empty]
  | cons x xs ih =>
    intro c
    rw [List.foldl_cons, ih (c ++ x),
      show String.join (x :: xs) = xs.foldl (fun r s => r ++ s) ("" ++ x) from rfl,
      ih ("" ++ x), String.empty_append, String.append_assoc]

lemma join_cons (a : String) (l : List String) :
    String.join (a :: l) = a ++ String.join l := by
  rw [show String.join (a :: l) = l.foldl (fun r s => r ++ s) ("" ++ a) from rfl,
    foldl_append_eq_join, String.empty_append]

lemma writeAll_eq (msgs : List String) : ∀ c : String,
    writeAll c msgs = c ++ String.join (msgs.map (fun m => m ++ "\n")) := by
  induction msgs with
  | nil => intro c; simp [writeAll, String.join, String.append_empty]
  | cons m ms ih =>
    intro c
    rw [show writeAll c (m :: ms) = writeAll (writeLine c m) ms from rfl, ih,
      List.map_cons, join_cons, writeLine, String.append_assoc,
      String.append_assoc, String.append_assoc]

lemma qrun_inv (ops : List QOp) : ∀ s : QTrace,
    s.popped ++ s.queue = s.pushed →
    (qrun s ops).popped ++ (qrun s ops).queue = (qrun s ops).pushed := by
  induction ops with
  | nil => intro s h; exact h
  | cons op rest ih =>
    intro s h
    refine ih (qstep s op) ?_
    cases op with
    | push v =>
      simp only [qstep, push]
      rw [← List.append_assoc, h]
    | pop =>
      cases hq : s.queue with
      | nil => simpa [qstep, try_pop, hq] using h
      | cons x xs =>
        simp only [qstep, try_pop, hq]
        rw [List.append_assoc]
        rw [hq] at h
        simpa using h

/-! ## Claim theorems -/

/-- C1: every rendered line embeds the location at which
`std::source_location::current()` is evaluated, and that evaluation sits in
the body of `Logger::log` (`LogLite.hpp:92`), not at the caller's call site:
the rendered line is entirely independent of the caller's location, and the
call from `main.cpp:9` renders `LogLite.hpp:92`.  This refutes the claim that
the line contains the caller's file and line. -/
theorem log_ignores_call_site (ts userMsg : String) (l₁ l₂ : SourceLoc) :
    logRender ts l₁ userMsg = logRender ts l₂ userMsg ∧
    logRender "2025-01-02 03:04:05" { file := "main.cpp", line := 9 }
        "Thread 0 logging message #0"
      = "[2025-01-02 03:04:05] [LogLite.hpp:92] Thread 0 logging message #0" :=
  ⟨rfl, by decide⟩

/-- C2: with N producer threads together pushing N·M non-empty items in some
interleaving with worker steps (`evs`, containing no teardown event), running
the destructor and joining the worker (`teardown`) stops the worker with an
empty queue and the file holding exactly the N·M pushed items, in push order:
nothing lost, nothing duplicated, and the sentinel never written. -/
theorem writer_no_loss (evs : List Ev) (N M : Nat)
    (hnd : Ev.deactivate ∉ evs)
    (hne : ∀ v ∈ pushedOf evs, v ≠ "")
    (hlen : (pushedOf evs).length = N * M) :
    (teardown (run initState evs)).phase = .stopped ∧
    (teardown (run initState evs)).queue = [] ∧
    (teardown (run initState evs)).file = pushedOf evs ∧
    (teardown (run initState evs)).file.length = N * M := by
  obtain ⟨ha1, hp1⟩ := run_no_deactivate evs initState hnd rfl rfl
  have key : teardown (run initState evs)
      = { queue := [], active := false,
          file := (shutdownState (run initState evs)).file
                    ++ realItems (shutdownState (run initState evs)).queue,
          phase := .stopped } :=
    runWriter_shutdown (shutdownState (run initState evs))
      (shutdownState_active _) ((shutdownState_phase _).trans hp1) _ (Nat.le_refl _)
  have hfile : (shutdownState (run initState evs)).file
      ++ realItems (shutdownState (run initState evs)).queue = pushedOf evs := by
    have hq : (shutdownState (run initState evs)).queue
        = (run initState evs).queue ++ [""] := rfl
    have hff : (shutdownState (run initState evs)).file
        = (run initState evs).file := rfl
    rw [hq, hff, realItems_append,
      show realItems [""] = [] from rfl, List.append_nil,
      run_file_queue evs initState]
    simpa [initState, realItems] using realItems_eq_self (pushedOf evs) hne
  rw [key]
  exact ⟨rfl, rfl, hfile, by rw [hfile, hlen]⟩

/-- Witness for C2 at a concrete run: one producer pushes "a" and "b"
(N = 1, M = 2) interleaved with a worker step; after teardown the file is
exactly ["a", "b"]. -/
theorem writer_no_loss_witness :
    Ev.deactivate ∉ [Ev.push "a", Ev.wstep, Ev.push "b"] ∧
    (teardown (run initState [Ev.push "a", Ev.wstep, Ev.push "b"])).file
      = pushedOf [Ev.push "a", Ev.wstep, Ev.push "b"] :=
  ⟨by decide,
   (writer_no_loss [Ev.push "a", Ev.wstep, Ev.push "b"] 1 2 (by decide)
      (by decide) (by decide)).2.2.1⟩

/-- C3 counterexample: the worker loop transcribed from the source does not
implement the spec's three-state machine.  On the state where the queue
holds only the empty item and the liveness flag is still true, the spec's
machine transitions to DRAINING after the pop, but the code stays in
RUNNING (the `while (m_active)` test is still true and the empty item is
merely skipped). -/
theorem writer_machine_cex :
    writerStep { queue := [""], active := true, file := [], phase := .running }
      ≠ specWriterStep { queue := [""], active := true, file := [], phase := .running } := by
  decide

/-- C3 (amended): the worker loop equals the amended machine: in RUNNING the
liveness flag is checked first and, when false, causes the transition to
DRAINING without popping; otherwise the worker blocking-pops, writes the
popped item exactly when non-empty, and stays in RUNNING; in DRAINING it
try_pops, writing each non-empty item, and moves to STOPPED exactly when the
queue reports empty. -/
theorem writer_machine_amended (s : LoggerState) :
    writerStep s = specWriterStepAmended s := by
  rcases s with ⟨q, a, f, ph⟩
  cases ph with
  | running =>
    cases a with
    | false => rfl
    | true =>
      cases q with
      | nil => rfl
      | cons x xs =>
        by_cases hx : x = "" <;>
          simp [writerStep, specWriterStepAmended, realItems, hx, List.filter_cons]
  | draining =>
    cases q with
    | nil => rfl
    | cons x xs =>
      by_cases hx : x = "" <;>
        simp [writerStep, specWriterStepAmended, try_pop, realItems, hx,
          List.filter_cons]
  | stopped => rfl

/-- C4: over any interleaved sequence of queue operations starting from the
empty queue, the items delivered to the consumer followed by the items still
queued are exactly the pushed items in push order: delivery is FIFO (the
delivered items are a prefix of the push sequence) and every pushed item is
delivered exactly once (it sits at exactly one place in `popped ++ queue`). -/
theorem queue_fifo (ops : List QOp) :
    (qrun qinit ops).popped ++ (qrun qinit ops).queue = (qrun qinit ops).pushed :=
  qrun_inv ops qinit rfl

/-- C5: over any interleaving of pushes (the shutdown sentinel push
included), worker steps and the teardown event, every line in the output
file is non-empty: the sentinel is never written, in the RUNNING phase or
in the shutdown drain. -/
theorem sentinel_never_written (evs : List Ev) (l : String)
    (hl : l ∈ (run initState evs).file) : l ≠ "" :=
  run_file_nonempty evs initState (by simp [initState]) l hl

/-- Witness for C5 at a concrete shutdown run: "x" is pushed, the sentinel
"" is pushed by teardown, and the line "x" that ends up in the file is
non-empty. -/
theorem sentinel_never_written_witness :
    "x" ∈ (run initState
        [Ev.push "x", Ev.deactivate, Ev.push "", Ev.wstep, Ev.wstep, Ev.wstep]).file ∧
    "x" ≠ "" :=
  ⟨by decide,
   sentinel_never_written
     [Ev.push "x", Ev.deactivate, Ev.push "", Ev.wstep, Ev.wstep, Ev.wstep]
     "x" (by decide)⟩

/-- C6: `try_pop` on an empty queue reports failure and returns immediately
with everything unchanged; on a non-empty queue it removes the head, moves
it into the slot, and reports success. -/
theorem try_pop_cases (slot : String) (q : List String) :
    try_pop slot q
      = if q.isEmpty then (false, slot, q) else (true, q.headI, q.tail) := by
  cases q <;> rfl

/-- C7: the wait inside `wait_and_pop` re-checks the non-emptiness predicate
at every wake-up, so it never returns while the queue is observed empty
(all-empty observation sequences return nothing, the thread stays blocked),
and when it does return, the returned value and remaining queue are head and
tail of an actually observed non-empty queue state. -/
theorem wait_and_pop_nonempty (obss : List (List String)) :
    ((∀ q ∈ obss, q = []) → wait_and_pop obss = none) ∧
    (∀ v q', wait_and_pop obss = some (v, q') → (v :: q') ∈ obss) := by
  constructor
  · intro hall
    have hfind : cvWaitObserved obss = none := by
      apply List.find?_eq_none.mpr
      intro q hq
      simp [hall q hq]
    simp [wait_and_pop, hfind]
  · intro v q' h
    unfold wait_and_pop at h
    cases hfind : cvWaitObserved obss with
    | none => rw [hfind] at h; exact absurd h (by simp)
    | some l =>
      rw [hfind] at h
      cases l with
      | nil => exact absurd h (by simp)
      | cons y ys =>
        simp only [Option.some.injEq, Prod.mk.injEq] at h
        obtain ⟨hv, hq⟩ := h
        subst hv; subst hq
        exact List.mem_of_find?_eq_some hfind

/-- Witness for C7: on the all-empty observations the wait never returns;
on observations ending with ["a", "b"] the returned head/tail pair comes
from that observed queue state. -/
theorem wait_and_pop_nonempty_witness :
    wait_and_pop [[], []] = none ∧ ("a" :: ["b"]) ∈ [[], ["a", "b"]] :=
  ⟨(wait_and_pop_nonempty [[], []]).1 (by decide),
   (wait_and_pop_nonempty [[], ["a", "b"]]).2 "a" ["b"] (by decide)⟩

/-- C8: every rendered line has the spec's shape
`[<timestamp>] [<file>:<line>] <message>`, and writing a sequence of
messages to the append-mode file appends, per message, exactly that message
followed by one newline after the prior contents. -/
theorem output_line_discipline (ts locFile : String) (locLine : Nat)
    (userMsg : String) (prior : String) (msgs : List String) :
    SpecLineShape (renderLine ts locFile locLine userMsg) ∧
    writeAll (openAppend prior) msgs
      = prior ++ String.join (msgs.map (fun m => m ++ "\n")) :=
  ⟨⟨ts, locFile, toString locLine, userMsg, rfl⟩, writeAll_eq msgs prior⟩

/-- C9: a failed `try_pop` (returning false) has no observable effect: the
caller's slot and the queue come back exactly as they went in. -/
theorem try_pop_failure_frame (slot : String) (q : List String)
    (h : (try_pop slot q).1 = false) :
    (try_pop slot q).2.1 = slot ∧ (try_pop slot q).2.2 = q := by
  cases q with
  | nil => exact ⟨rfl, rfl⟩
  | cons x xs => simp [try_pop] at h

/-- Witness for C9 on the empty queue: the pop fails and slot and queue are
unchanged. -/
theorem try_pop_failure_frame_witness :
    (try_pop "slot" []).1 = false ∧
    ((try_pop "slot" []).2.1 = "slot" ∧ (try_pop "slot" []).2.2 = ([] : List String)) :=
  ⟨rfl, try_pop_failure_frame "slot" [] rfl⟩

/-- C10: each successful `try_pop` strictly decreases the queue length, and
the shutdown drain loop run with at least `q.length` fuel performs exactly
one successful `try_pop` per queued item, writes exactly the non-empty
items in order, and leaves the queue empty when `writer_loop` returns. -/
theorem drain_loop_complete (file q : List String) (fuel : Nat)
    (hf : q.length ≤ fuel) :
    (∀ slot v q', try_pop slot q = (true, v, q') → q'.length + 1 = q.length) ∧
    drainLoop file q fuel = (file ++ realItems q, [], q.length) := by
  constructor
  · intro slot v q' h
    cases q with
    | nil => exact absurd h (by simp [try_pop])
    | cons x xs =>
      simp only [try_pop, Prod.mk.injEq] at h
      rw [← h.2.2]
      rfl
  · exact drainLoop_eq q file fuel hf

/-- Witness for C10 on the queue ["a", "", "b"]: three successful pops,
the two non-empty items written, final queue empty. -/
theorem drain_loop_complete_witness :
    ["a", "", "b"].length ≤ 3 ∧
    drainLoop [] ["a", "", "b"] 3 = (["a", "b"], [], 3) :=
  ⟨by decide, (drain_loop_complete [] ["a", "", "b"] 3 (by decide)).2⟩

end LogLite
